import Mathlib

/-!
Shallow embedding of the `KMongoTrackerStore` conversation tracker store
(`src/kairon/shared/trackers.py`).

Modelling conventions:
* The Mongo collection is a `List StoreDoc` in insertion order.
* Event timestamps are `Nat` (the code only compares them; ordering is all
  that matters for the claims considered here).
* The aggregation `$sort` stage is modelled as a stable ascending sort; a
  document missing the sort field (`event.timestamp`) sorts before every
  document that has it, following BSON comparison order.
* The `$push` accumulator skips documents on which the pushed expression
  (`$event`) is missing, hence `List.filterMap docEvent`.
* A `$ne` match condition is satisfied by documents missing the field; a
  `$gte` condition with a number is not.
* Python truthiness of a query result (`if not stored`) treats both the
  absent result and the empty list as false.
* `uuid7().hex` is modelled by passing the freshly generated identifier as
  an explicit argument to `save`.
-/

namespace KaironTrackers

/-- One dialogue event as handed over by the dialogue engine (the dict
produced by `event.as_dict()`): `event` is the type tag, `name` the action
name (if any), `text` the utterance text, `data` the auxiliary payload of a
bot reply, and `intent` / `confidence` stand for
`parse_data.intent.name` / `parse_data.intent.confidence` of a user event. -/
structure KEvent where
  event : String
  timestamp : Nat
  name : Option String
  text : Option String
  data : Option String
  intent : String
  confidence : Nat
deriving DecidableEq

/-- A stored `sender_id` value: the canonical string form or the legacy
integer form that old records may still carry. -/
inductive SenderKey where
  | str (s : String)
  | int (n : Nat)
deriving DecidableEq

/-- The mutable fields of the flattened summary record built by `save`:
`timestamp` is the top level key set from a user event; `user_input`,
`intent` and `confidence` live under `data`; an outer `none` means the key
was never set (no user event in the batch). `action` and `bot_response`
are always present and accumulate in encounter order. -/
structure FlatData where
  timestamp : Option Nat
  user_input : Option (Option String)
  intent : Option String
  confidence : Option Nat
  action : List (Option String)
  bot_response : List (Option String × Option String)
deriving DecidableEq

/-- One document of the `conversations` collection: either an event record
(keys `sender_id`, `conversation_id`, `event`) or a flattened summary
record (keys `type = "flattened"`, `sender_id`, `conversation_id`,
optionally `timestamp`, and `data`); a flattened record has no `event`
field. -/
inductive StoreDoc where
  | eventDoc (sender_id : SenderKey) (conversation_id : String) (event : KEvent)
  | flattenedDoc (sender_id : SenderKey) (conversation_id : String) (data : FlatData)
deriving DecidableEq

/-- The `sender_id` field of a document. -/
def docSender : StoreDoc → SenderKey
  | .eventDoc s _ _ => s
  | .flattenedDoc s _ _ => s

/-- The `conversation_id` field of a document. -/
def docConversationId : StoreDoc → String
  | .eventDoc _ c _ => c
  | .flattenedDoc _ c _ => c

/-- The `event` field of a document; missing (`none`) on flattened
records. -/
def docEvent : StoreDoc → Option KEvent
  | .eventDoc _ _ e => some e
  | .flattenedDoc _ _ _ => none

/-- The `data` field of a flattened record. -/
def docFlatData : StoreDoc → Option FlatData
  | .eventDoc _ _ _ => none
  | .flattenedDoc _ _ f => some f

/-- Whether a document is a flattened summary record (`type =
"flattened"`). -/
def isFlattenedDoc : StoreDoc → Bool
  | .eventDoc _ _ _ => false
  | .flattenedDoc _ _ _ => true

/-- The dotted path `event.event` of a document. -/
def eventTag (d : StoreDoc) : Option String := (docEvent d).map (·.event)

/-- The dotted path `event.timestamp` of a document. -/
def eventTs (d : StoreDoc) : Option Nat := (docEvent d).map (·.timestamp)

/-- Rewrite the `sender_id` field of a document (the `$set` of the legacy
key migration). -/
def setSender (k : SenderKey) : StoreDoc → StoreDoc
  | .eventDoc _ c e => .eventDoc k c e
  | .flattenedDoc _ c f => .flattenedDoc k c f

/-- Stable insertion into a sorted list: the new element goes before the
first element it compares less-or-equal to. -/
def insertSorted (le : α → α → Bool) (a : α) : List α → List α
  | [] => [a]
  | b :: l => if le a b then a :: b :: l else b :: insertSorted le a l

/-- Stable ascending sort, modelling the aggregation `$sort` stage. -/
def stableSort (le : α → α → Bool) : List α → List α
  | [] => []
  | a :: l => insertSorted le a (stableSort le l)

/-- BSON comparison on the sort key `event.timestamp`: a missing value
sorts before every number. -/
def tsLe (a b : StoreDoc) : Bool :=
  match eventTs a, eventTs b with
  | none, _ => true
  | some _, none => false
  | some x, some y => x ≤ y

/-- Maximum of a list of timestamps, `none` on the empty list (the value
the `$sort` ascending plus `$last` pipeline extracts). -/
def maxTimestamp : List Nat → Option Nat
  | [] => none
  | t :: ts =>
    match maxTimestamp ts with
    | none => some t
    | some m => some (max t m)

/-- Timestamps of the `session_started` events stored for a sender (the
`$match` of the last-session pipeline keeps only documents whose
`event.event` equals `session_started`, which excludes flattened
records). -/
def ssTimestamps (docs : List StoreDoc) (sender_id : String) : List Nat :=
  docs.filterMap fun d =>
    match docEvent d with
    | some e =>
      if docSender d = SenderKey.str sender_id ∧ e.event = "session_started" then
        some e.timestamp
      else none
    | none => none

/-- The boundary of the current session: the maximum `event.timestamp`
over all stored `session_started` events of the sender, `none` when there
is no such event. -/
def lastSessionStart (docs : List StoreDoc) (sender_id : String) : Option Nat :=
  maxTimestamp (ssTimestamps docs sender_id)

/-- The filter query built by `get_stored_events`: always matches on
`sender_id`; in session-scoped mode additionally requires
`event.event ≠ session_started` (satisfied by documents missing the
field) and, when a session boundary exists, `event.timestamp ≥ boundary`
(not satisfied by documents missing the field). -/
def matchesFilter (sender_id : String) (allSessions : Bool) (windowStart : Option Nat)
    (d : StoreDoc) : Bool :=
  docSender d == SenderKey.str sender_id &&
  (allSessions || eventTag d != some "session_started") &&
  (allSessions ||
    match windowStart with
    | none => true
    | some T =>
      match eventTs d with
      | some t => T ≤ t
      | none => false)

/-- The output of the `$match` stage of `get_stored_events`: the stored
documents satisfying the filter query, in insertion order. -/
def matchedDocs (docs : List StoreDoc) (sender_id : String)
    (fetch_events_from_all_sessions : Bool) : List StoreDoc :=
  docs.filter
    (matchesFilter sender_id fetch_events_from_all_sessions
      (if fetch_events_from_all_sessions then none
       else lastSessionStart docs sender_id))

/-- `KMongoTrackerStore.get_stored_events`: build the filter query, run
match, ascending sort on `event.timestamp` and push of `$event`, and
return `none` when no document matched at all (the aggregation produced
no group, so `stored` is the empty list and the method returns `None`). -/
def get_stored_events (docs : List StoreDoc) (sender_id : String)
    (fetch_events_from_all_sessions : Bool) : Option (List KEvent) :=
  if matchedDocs docs sender_id fetch_events_from_all_sessions = [] then none
  else
    some
      ((stableSort tsLe (matchedDocs docs sender_id fetch_events_from_all_sessions)).filterMap
        docEvent)

/-- The in-memory state handed to `save`: the sender and the full ordered
event sequence of the dialogue engine tracker. -/
structure Tracker where
  sender_id : String
  events : List KEvent
deriving DecidableEq

/-- Python truthiness of the query result: absent and the empty list are
false. -/
def stored_falsy : Option (List KEvent) → Bool
  | none => true
  | some l => l.isEmpty

/-- `KMongoTrackerStore._additional_events`, as the sequence of events the
returned object yields: read the stored events of the current session and
slice the tracker sequence beyond their count; the Python truthiness test
on `stored` sends both the absent result and the empty list to the full
sequence. -/
def _additional_events (docs : List StoreDoc) (tracker : Tracker) : List KEvent :=
  if stored_falsy (get_stored_events docs tracker.sender_id false) then tracker.events
  else
    tracker.events.drop ((get_stored_events docs tracker.sender_id false).getD []).length

/-- Python truthiness of the object `_additional_events` returns, which is
what the branch guard of `save` actually tests: when `stored` is falsy the
method returns the tracker deque, truthy exactly when non-empty; when
`stored` is truthy it returns an `itertools.islice` iterator, which is
always truthy — even when it yields no element at all. -/
def additional_events_truthy (docs : List StoreDoc) (tracker : Tracker) : Bool :=
  if stored_falsy (get_stored_events docs tracker.sender_id false) then
    !tracker.events.isEmpty
  else true

/-- The flattened summary before the loop of `save` has seen any event:
no user turn fields set, empty action and bot response accumulators. -/
def flattenInit : FlatData :=
  { timestamp := none, user_input := none, intent := none, confidence := none,
    action := [], bot_response := [] }

/-- One iteration of the loop of `save` (lines 103 to 122): a `user` event
overwrites the turn fields, an `action` event appends its name, a `bot`
event appends its text and data, anything else is ignored. -/
def flattenStep (f : FlatData) (e : KEvent) : FlatData :=
  if e.event = "user" then
    { f with timestamp := some e.timestamp, user_input := some e.text,
             intent := some e.intent, confidence := some e.confidence }
  else if e.event = "action" then
    { f with action := f.action ++ [e.name] }
  else if e.event = "bot" then
    { f with bot_response := f.bot_response ++ [(e.text, e.data)] }
  else f

/-- The loop of `save` over the new events (lines 100 to 124): build the
flattened summary, overwriting the user turn fields on every user event
and accumulating action names and bot responses in encounter order. -/
def buildFlattened (additional_events : List KEvent) : FlatData :=
  additional_events.foldl flattenStep flattenInit

/-- `KMongoTrackerStore.save`: when the additional events value is truthy
(which for an `islice` iterator it always is, even with an empty suffix),
append one event document per suffix element followed by the flattened
summary record, all sharing the single freshly generated
`conversation_id`; the trailing `if data:` test of the source is always
true inside the branch since `data` ends with the flattened record. -/
def save (docs : List StoreDoc) (tracker : Tracker) (conversation_id : String) :
    List StoreDoc :=
  if additional_events_truthy docs tracker then
    docs ++
      (_additional_events docs tracker).map
        (fun e => StoreDoc.eventDoc (.str tracker.sender_id) conversation_id e) ++
      [StoreDoc.flattenedDoc (.str tracker.sender_id) conversation_id
        (buildFlattened (_additional_events docs tracker))]
  else docs

/-- Python `str.isdigit`: non-empty and every character a digit (stated
over the character list of the string). -/
def isdigit (s : String) : Bool := !s.data.isEmpty && s.data.all (·.isDigit)

/-- Python `int(s)` on a purely numeric string: the base ten value of its
digit characters. -/
def strToNat (s : String) : Nat :=
  s.data.foldl (fun n c => n * 10 + (c.toNat - 48)) 0

/-- The `update_many` of the legacy key migration: rewrite every document
whose `sender_id` is the integer value of the identifier to the string
form. -/
def migrate_key (docs : List StoreDoc) (sender_id : String) : List StoreDoc :=
  docs.map fun d =>
    if docSender d = SenderKey.int (strToNat sender_id) then
      setSender (SenderKey.str sender_id) d
    else d

/-- The observable outcome of `_retrieve`: the collection after the call
(the migration may have rewritten keys), the returned events (absent is
`none`) and whether the legacy key migration branch ran. -/
structure RetrieveResult where
  docs : List StoreDoc
  events : Option (List KEvent)
  ranMigration : Bool
deriving DecidableEq

/-- `KMongoTrackerStore._retrieve`: read the stored events; when the
result is falsy and the identifier is purely numeric, run the legacy key
migration; a falsy read returns absent (the read is not retried after the
migration). -/
def _retrieve (docs : List StoreDoc) (sender_id : String)
    (fetch_events_from_all_sessions : Bool) : RetrieveResult :=
  if stored_falsy (get_stored_events docs sender_id fetch_events_from_all_sessions) &&
      isdigit sender_id then
    { docs := migrate_key docs sender_id, events := none, ranMigration := true }
  else if stored_falsy (get_stored_events docs sender_id fetch_events_from_all_sessions) then
    { docs := docs, events := none, ranMigration := false }
  else
    { docs := docs,
      events := get_stored_events docs sender_id fetch_events_from_all_sessions,
      ranMigration := false }

/-- `KMongoTrackerStore.retrieve`: session-scoped read (the tracker
reconstruction `DialogueStateTracker.from_dict` is outside the store and
not modelled; the event list fully determines it). -/
def retrieve (docs : List StoreDoc) (sender_id : String) : RetrieveResult :=
  _retrieve docs sender_id false

/-- `KMongoTrackerStore.retrieve_full_tracker`: unbounded read over all
sessions. -/
def retrieve_full_tracker (docs : List StoreDoc) (conversation_id : String) :
    RetrieveResult :=
  _retrieve docs conversation_id true

/-- `conversations.distinct(key="sender_id")`: the distinct values of the
`sender_id` field, in first occurrence order. -/
def distinct_sender_ids (docs : List StoreDoc) : List SenderKey :=
  (docs.map docSender).eraseDups

/-- Python subscription `c["sender_id"]` where `c` is a scalar value (a
string or an integer as returned by `distinct`): raises `TypeError`
unconditionally, modelled as `Except.error`. -/
def subscript_value (_c : SenderKey) (k : String) : Except String SenderKey :=
  Except.error ("TypeError: " ++ k ++ " subscription of a non dictionary value")

/-- `KMongoTrackerStore.keys`: list comprehension subscripting each value
returned by `distinct` with the string key `sender_id`. -/
def keys (docs : List StoreDoc) : Except String (List SenderKey) :=
  (distinct_sender_ids docs).mapM fun c => subscript_value c "sender_id"

/-- The suffix computation as claim C3 words it: read the currently
persisted event count for the key under the unbounded window (the entire
history, all sessions, including `session_started` events) and take
exactly the elements of the supplied full sequence beyond that count.
Stated from the spec, for comparison with `_additional_events`. -/
def additional_events_spec (docs : List StoreDoc) (tracker : Tracker) : List KEvent :=
  match get_stored_events docs tracker.sender_id true with
  | none => tracker.events
  | some stored => tracker.events.drop stored.length

/-- The number of event documents stored for a sender inside the current
session window: documents that carry an `event` field and match the
session-scoped filter (not a `session_started` marker, and not before the
latest session start when one exists). -/
def sessionWindowCount (docs : List StoreDoc) (sender_id : String) : Nat :=
  docs.countP fun d =>
    (docEvent d).isSome &&
    matchesFilter sender_id false (lastSessionStart docs sender_id) d

/-- The number of flattened summary records in the store. -/
def flattenedCount (docs : List StoreDoc) : Nat :=
  docs.countP isFlattenedDoc

/-! Concrete events, trackers and stores used by witnesses and
counterexamples. -/

/-- A sample `session_started` event. -/
def exSession (ts : Nat) : KEvent :=
  { event := "session_started", timestamp := ts, name := none, text := none,
    data := none, intent := "", confidence := 0 }

/-- A sample `user` event with utterance text, intent and confidence. -/
def exUser (ts : Nat) (txt intentName : String) (conf : Nat) : KEvent :=
  { event := "user", timestamp := ts, name := none, text := some txt,
    data := none, intent := intentName, confidence := conf }

/-- A sample `bot` event. -/
def exBot (ts : Nat) (txt : String) : KEvent :=
  { event := "bot", timestamp := ts, name := none, text := some txt,
    data := some "payload", intent := "", confidence := 0 }

/-- A sample `action` event. -/
def exAction (ts : Nat) (actionName : String) : KEvent :=
  { event := "action", timestamp := ts, name := some actionName, text := none,
    data := none, intent := "", confidence := 0 }

/-- A tracker holding one full session: session start, a user turn and the
bot reply. -/
def exTracker : Tracker :=
  { sender_id := "alice",
    events := [exSession 1, exUser 2 "hello" "greet" 90, exBot 3 "hi there"] }

/-- A tracker whose full sequence contains no `session_started` marker. -/
def exTrackerNoSession : Tracker :=
  { sender_id := "bob", events := [exUser 1 "hi" "greet" 80, exBot 2 "hello"] }

/-- A tracker whose only event is a bot reply (no `user` event at all). -/
def exTrackerBotOnly : Tracker :=
  { sender_id := "bob", events := [exBot 1 "hello"] }

/-- A tracker whose sequence holds two distinct `user` events. -/
def exTrackerTwoUsers : Tracker :=
  { sender_id := "carol",
    events := [exUser 1 "first" "greet" 10, exUser 2 "second" "goodbye" 20] }

/-- Events of one conversation: an old event at time 3, a session start at
time 5 and five later events, one of them exactly at the boundary. -/
def exSessionEvents : List KEvent :=
  [exBot 3 "old", exSession 5, exUser 5 "hello" "greet" 70, exAction 6 "a1",
   exBot 6 "reply", exUser 7 "next" "goodbye" 60, exBot 8 "done"]

/-- Events of a conversation stored under a legacy integer key. -/
def exLegacyEvents : List KEvent :=
  [exUser 1 "hi" "greet" 80, exBot 2 "hello"]

/-! Generic facts about the stable sort and the maximum fold. -/

theorem insertSorted_nil (le : α → α → Bool) (a : α) : insertSorted le a [] = [a] := rfl

theorem insertSorted_cons (le : α → α → Bool) (a b : α) (l : List α) :
    insertSorted le a (b :: l) =
      if le a b then a :: b :: l else b :: insertSorted le a l := rfl

theorem stableSort_nil (le : α → α → Bool) : stableSort le ([] : List α) = [] := rfl

theorem stableSort_cons (le : α → α → Bool) (a : α) (l : List α) :
    stableSort le (a :: l) = insertSorted le a (stableSort le l) := rfl

theorem insertSorted_perm (le : α → α → Bool) (a : α) (l : List α) :
    List.Perm (insertSorted le a l) (a :: l) := by
  induction l with
  | nil => exact List.Perm.refl _
  | cons b t ih =>
    rw [insertSorted_cons]
    split
    · exact List.Perm.refl _
    · exact (ih.cons b).trans (List.Perm.swap a b t)

theorem stableSort_perm (le : α → α → Bool) (l : List α) :
    List.Perm (stableSort le l) l := by
  induction l with
  | nil => exact List.Perm.refl _
  | cons a t ih => exact (insertSorted_perm le a (stableSort le t)).trans (ih.cons a)

theorem insertSorted_eq_cons (le : α → α → Bool) (a : α) (l : List α)
    (h : ∀ b ∈ l, le a b = true) : insertSorted le a l = a :: l := by
  cases l with
  | nil => rfl
  | cons b t => simp [insertSorted, h b (List.mem_cons_self b t)]

theorem stableSort_eq_self (le : α → α → Bool) (l : List α)
    (h : l.Pairwise (fun x y => le x y = true)) : stableSort le l = l := by
  induction l with
  | nil => rfl
  | cons a t ih =>
    rcases List.pairwise_cons.mp h with ⟨ha, ht⟩
    rw [stableSort, ih ht, insertSorted_eq_cons le a t ha]

theorem stableSort_append_min (le : α → α → Bool) (l : List α) (m : α)
    (hl : l.Pairwise (fun x y => le x y = true))
    (hm : ∀ x ∈ l, le x m = false) : stableSort le (l ++ [m]) = m :: l := by
  induction l with
  | nil => simp [stableSort, insertSorted]
  | cons a t ih =>
    rcases List.pairwise_cons.mp hl with ⟨ha, ht⟩
    have hrec : stableSort le (t ++ [m]) = m :: t :=
      ih ht (fun x hx => hm x (List.mem_cons_of_mem a hx))
    have ham : le a m = false := hm a (List.mem_cons_self a t)
    rw [List.cons_append, stableSort_cons, hrec, insertSorted_cons,
      if_neg (by simp [ham]), insertSorted_eq_cons le a t ha]

theorem maxTimestamp_none_iff (l : List Nat) : maxTimestamp l = none ↔ l = [] := by
  cases l with
  | nil => simp [maxTimestamp]
  | cons t ts =>
    simp only [maxTimestamp]
    cases maxTimestamp ts <;> simp

theorem maxTimestamp_mem_ub (l : List Nat) (m : Nat) (h : maxTimestamp l = some m) :
    m ∈ l ∧ ∀ x ∈ l, x ≤ m := by
  induction l generalizing m with
  | nil => cases h
  | cons t ts ih =>
    cases hts : maxTimestamp ts with
    | none =>
      have hnil : ts = [] := (maxTimestamp_none_iff ts).mp hts
      subst hnil
      simp only [maxTimestamp, Option.some.injEq] at h
      subst h
      simp
    | some k =>
      simp only [maxTimestamp, hts, Option.some.injEq] at h
      subst h
      rcases ih k hts with ⟨hmem, hub⟩
      constructor
      · rcases Nat.le_total t k with hle | hle
        · rw [Nat.max_eq_right hle]; exact List.mem_cons_of_mem t hmem
        · rw [Nat.max_eq_left hle]; exact List.mem_cons_self t ts
      · intro x hx
        rcases List.mem_cons.mp hx with rfl | hx
        · exact Nat.le_max_left x k
        · exact Nat.le_trans (hub x hx) (Nat.le_max_right t k)

theorem maxTimestamp_eq_some (l : List Nat) (T : Nat) (hmem : T ∈ l)
    (hub : ∀ x ∈ l, x ≤ T) : maxTimestamp l = some T := by
  cases h : maxTimestamp l with
  | none =>
    exfalso
    cases l with
    | nil => simp at hmem
    | cons t ts => simp only [maxTimestamp] at h; cases hts : maxTimestamp ts <;> simp [hts] at h
  | some m =>
    rcases maxTimestamp_mem_ub l m h with ⟨hmmem, hmub⟩
    have : m = T := Nat.le_antisymm (hub m hmmem) (hmub T hmem)
    rw [this]

/-! Facts about the query pipeline on stores of known shape. -/

theorem bne_none_some (x : String) : ((none : Option String) != some x) = true := rfl

theorem bne_some_some (a b : String) : (some a != some b) = (a != b) := rfl

theorem matchesFilter_all_sessions (sender_id : String) (ws : Option Nat) (d : StoreDoc) :
    matchesFilter sender_id true ws d = (docSender d == SenderKey.str sender_id) := by
  simp [matchesFilter]

theorem pairwise_tsLe_map (s : SenderKey) (cid : String) (es : List KEvent)
    (h : es.Pairwise fun a b => a.timestamp ≤ b.timestamp) :
    (es.map (StoreDoc.eventDoc s cid)).Pairwise fun x y => tsLe x y = true := by
  refine List.Pairwise.map _ ?_ h
  intro a b hab
  simp [tsLe, eventTs, docEvent, hab]

theorem filterMap_docEvent_map (s : SenderKey) (cid : String) (es : List KEvent) :
    (es.map (StoreDoc.eventDoc s cid)).filterMap docEvent = es := by
  induction es with
  | nil => rfl
  | cons e t ih => simp [List.filterMap_cons, docEvent, ih]

theorem matchedDocs_eq_nil (docs : List StoreDoc) (sid : String) (fa : Bool)
    (hdisj : ∀ d ∈ docs, docSender d ≠ SenderKey.str sid) :
    matchedDocs docs sid fa = [] := by
  rw [matchedDocs, List.filter_eq_nil_iff]
  intro d hd
  simp [matchesFilter, hdisj d hd]

theorem get_stored_events_eq_none (docs : List StoreDoc) (sid : String) (fa : Bool)
    (hdisj : ∀ d ∈ docs, docSender d ≠ SenderKey.str sid) :
    get_stored_events docs sid fa = none := by
  rw [get_stored_events, if_pos (matchedDocs_eq_nil docs sid fa hdisj)]

theorem matchedDocs_all_sessions (docs0 batch : List StoreDoc) (sid : String)
    (hdisj : ∀ d ∈ docs0, docSender d ≠ SenderKey.str sid)
    (hbatch : ∀ d ∈ batch, docSender d = SenderKey.str sid) :
    matchedDocs (docs0 ++ batch) sid true = batch := by
  have h1 : docs0.filter (matchesFilter sid true none) = [] :=
    List.filter_eq_nil_iff.mpr fun d hd => by simp [matchesFilter, hdisj d hd]
  have h2 : batch.filter (matchesFilter sid true none) = batch :=
    List.filter_eq_self.mpr fun d hd => by simp [matchesFilter, hbatch d hd]
  simp [matchedDocs, List.filter_append, h1, h2]

theorem get_stored_events_all_of_saved (docs0 : List StoreDoc) (sid cid : String)
    (es : List KEvent) (f : FlatData)
    (hdisj : ∀ d ∈ docs0, docSender d ≠ SenderKey.str sid)
    (hsorted : es.Pairwise fun a b => a.timestamp ≤ b.timestamp) :
    get_stored_events
      (docs0 ++
        (es.map (StoreDoc.eventDoc (.str sid) cid) ++
          [StoreDoc.flattenedDoc (.str sid) cid f])) sid true = some es := by
  have hbatch :
      ∀ d ∈ es.map (StoreDoc.eventDoc (.str sid) cid) ++
          [StoreDoc.flattenedDoc (.str sid) cid f],
        docSender d = SenderKey.str sid := by
    intro d hd
    rcases List.mem_append.mp hd with hd | hd
    · rcases List.mem_map.mp hd with ⟨e, _, rfl⟩
      rfl
    · rcases List.mem_singleton.mp hd with rfl
      rfl
  have hm := matchedDocs_all_sessions docs0 _ sid hdisj hbatch
  have hmne :
      es.map (StoreDoc.eventDoc (.str sid) cid) ++
        [StoreDoc.flattenedDoc (.str sid) cid f] ≠ [] := by
    simp
  have hsort :
      stableSort tsLe
          (es.map (StoreDoc.eventDoc (.str sid) cid) ++
            [StoreDoc.flattenedDoc (.str sid) cid f]) =
        StoreDoc.flattenedDoc (.str sid) cid f :: es.map (StoreDoc.eventDoc (.str sid) cid) := by
    apply stableSort_append_min
    · exact pairwise_tsLe_map _ cid es hsorted
    · intro x hx
      rcases List.mem_map.mp hx with ⟨e, _, rfl⟩
      rfl
  have hfm :
      List.filterMap docEvent
          (StoreDoc.flattenedDoc (.str sid) cid f ::
            es.map (StoreDoc.eventDoc (.str sid) cid)) = es := by
    rw [List.filterMap_cons]
    simp only [docEvent]
    exact filterMap_docEvent_map _ cid es
  rw [get_stored_events, hm, if_neg hmne, hsort, hfm]

theorem stored_falsy_none : stored_falsy none = true := rfl

theorem stored_falsy_some (l : List KEvent) : stored_falsy (some l) = l.isEmpty := rfl

theorem additional_events_of_disjoint (docs0 : List StoreDoc) (tr : Tracker)
    (hdisj : ∀ d ∈ docs0, docSender d ≠ SenderKey.str tr.sender_id) :
    _additional_events docs0 tr = tr.events := by
  rw [_additional_events, get_stored_events_eq_none docs0 tr.sender_id false hdisj]
  simp [stored_falsy]

theorem additional_events_truthy_of_disjoint (docs0 : List StoreDoc) (tr : Tracker)
    (hdisj : ∀ d ∈ docs0, docSender d ≠ SenderKey.str tr.sender_id) :
    additional_events_truthy docs0 tr = !tr.events.isEmpty := by
  rw [additional_events_truthy, get_stored_events_eq_none docs0 tr.sender_id false hdisj]
  simp [stored_falsy]

theorem additional_events_truthy_of_ne (docs : List StoreDoc) (tr : Tracker)
    (h : _additional_events docs tr ≠ []) :
    additional_events_truthy docs tr = true := by
  rw [additional_events_truthy]
  by_cases hf : stored_falsy (get_stored_events docs tr.sender_id false) = true
  · rw [if_pos hf]
    rw [_additional_events, if_pos hf] at h
    simp [h]
  · rw [if_neg hf]

theorem save_disjoint (docs0 : List StoreDoc) (tr : Tracker) (cid : String)
    (hdisj : ∀ d ∈ docs0, docSender d ≠ SenderKey.str tr.sender_id)
    (hne : tr.events ≠ []) :
    save docs0 tr cid =
      docs0 ++
        (tr.events.map (StoreDoc.eventDoc (.str tr.sender_id) cid) ++
          [StoreDoc.flattenedDoc (.str tr.sender_id) cid (buildFlattened tr.events)]) := by
  have ha := additional_events_of_disjoint docs0 tr hdisj
  have ht : additional_events_truthy docs0 tr = true := by
    rw [additional_events_truthy_of_disjoint docs0 tr hdisj]
    simp [hne]
  rw [save, if_pos ht, ha, List.append_assoc]

/-! ## C1 -/

/-- C1: for a conversation key with no previously stored documents, `save`
with the full ordered event sequence followed by `retrieve_full` under the
same key returns exactly the events passed to `save`, in the same order
(equality of the lists means no event is missing and none is
duplicated). -/
theorem save_retrieve_full_roundtrip (docs0 : List StoreDoc) (tr : Tracker) (cid : String)
    (hdisj : ∀ d ∈ docs0, docSender d ≠ SenderKey.str tr.sender_id)
    (hsorted : tr.events.Pairwise fun a b => a.timestamp ≤ b.timestamp)
    (hne : tr.events ≠ []) :
    (retrieve_full_tracker (save docs0 tr cid) tr.sender_id).events = some tr.events := by
  rw [save_disjoint docs0 tr cid hdisj hne, retrieve_full_tracker, _retrieve,
    get_stored_events_all_of_saved docs0 tr.sender_id cid tr.events _ hdisj hsorted]
  simp [stored_falsy, hne]

/-- Witness for C1 at a concrete conversation: empty store, three sorted
events. -/
theorem save_retrieve_full_roundtrip_witness :
    (retrieve_full_tracker (save [] exTracker "c1") "alice").events =
      some exTracker.events :=
  save_retrieve_full_roundtrip [] exTracker "c1" (by simp) (by decide) (by decide)

/-! ## C2 -/

theorem get_stored_events_of_matched (docs : List StoreDoc) (sid : String) (fa : Bool)
    (h : matchedDocs docs sid fa ≠ []) :
    get_stored_events docs sid fa =
      some ((stableSort tsLe (matchedDocs docs sid fa)).filterMap docEvent) := by
  rw [get_stored_events, if_neg h]

theorem length_sorted_filterMap (l : List StoreDoc) :
    ((stableSort tsLe l).filterMap docEvent).length =
      l.countP fun d => (docEvent d).isSome := by
  rw [List.length_filterMap_eq_countP]
  exact (stableSort_perm tsLe l).countP_eq _

theorem countP_isSome_map (s : SenderKey) (cid : String) (es : List KEvent) :
    (es.map (StoreDoc.eventDoc s cid)).countP (fun d => (docEvent d).isSome) =
      es.length := by
  induction es with
  | nil => rfl
  | cons e t ih => simp [List.countP_cons, docEvent, ih]

theorem ssTimestamps_append_batch (docs0 : List StoreDoc) (sid cid : String)
    (es : List KEvent) (f : FlatData)
    (hdisj : ∀ d ∈ docs0, docSender d ≠ SenderKey.str sid)
    (hnoss : ∀ e ∈ es, e.event ≠ "session_started") :
    ssTimestamps
      (docs0 ++
        (es.map (StoreDoc.eventDoc (.str sid) cid) ++
          [StoreDoc.flattenedDoc (.str sid) cid f])) sid = [] := by
  rw [ssTimestamps, List.filterMap_eq_nil_iff]
  intro d hd
  rcases List.mem_append.mp hd with hd | hd
  · cases d with
    | eventDoc s c e =>
      have hs : s ≠ SenderKey.str sid := hdisj _ hd
      simp [docEvent, docSender, hs]
    | flattenedDoc s c g => rfl
  · rcases List.mem_append.mp hd with hd | hd
    · rcases List.mem_map.mp hd with ⟨e, he, rfl⟩
      simp only [docEvent, docSender]
      simp [hnoss e he]
    · rcases List.mem_singleton.mp hd with rfl
      rfl

theorem matchedDocs_session_no_ss (docs0 : List StoreDoc) (sid cid : String)
    (es : List KEvent) (f : FlatData)
    (hdisj : ∀ d ∈ docs0, docSender d ≠ SenderKey.str sid)
    (hnoss : ∀ e ∈ es, e.event ≠ "session_started") :
    matchedDocs
        (docs0 ++
          (es.map (StoreDoc.eventDoc (.str sid) cid) ++
            [StoreDoc.flattenedDoc (.str sid) cid f])) sid false =
      es.map (StoreDoc.eventDoc (.str sid) cid) ++
        [StoreDoc.flattenedDoc (.str sid) cid f] := by
  have hss :
      lastSessionStart
        (docs0 ++
          (es.map (StoreDoc.eventDoc (.str sid) cid) ++
            [StoreDoc.flattenedDoc (.str sid) cid f])) sid = none := by
    rw [lastSessionStart, ssTimestamps_append_batch docs0 sid cid es f hdisj hnoss]
    rfl
  rw [matchedDocs]
  simp only [Bool.false_eq_true, if_false, hss]
  rw [List.filter_append]
  have h1 : docs0.filter (matchesFilter sid false none) = [] :=
    List.filter_eq_nil_iff.mpr fun d hd => by simp [matchesFilter, hdisj d hd]
  rw [h1, List.nil_append, List.filter_append]
  have h2 :
      (es.map (StoreDoc.eventDoc (.str sid) cid)).filter (matchesFilter sid false none) =
        es.map (StoreDoc.eventDoc (.str sid) cid) :=
    List.filter_eq_self.mpr fun d hd => by
      rcases List.mem_map.mp hd with ⟨e, he, rfl⟩
      simp [matchesFilter, docSender, eventTag, docEvent, hnoss e he]
  have h3 :
      [StoreDoc.flattenedDoc (.str sid) cid f].filter (matchesFilter sid false none) =
        [StoreDoc.flattenedDoc (.str sid) cid f] := by
    simp [List.filter, matchesFilter, docSender, eventTag, docEvent, bne_none_some]
  rw [h2, h3]

/-- C2 counterexample: the second `save` with the very same full sequence
changes the persisted set in both situations. With a `session_started`
event in the sequence the computed suffix is non-empty (the session-scoped
stored count excludes the marker) and trailing events are re-appended.
Without one the suffix is empty, yet the store still changes: the branch
guard tests the always-truthy `islice` iterator, so one flattened record
is inserted anyway. -/
theorem save_twice_appends_counterexample :
    (_additional_events (save [] exTracker "c1") exTracker ≠ [] ∧
        save (save [] exTracker "c1") exTracker "c2" ≠ save [] exTracker "c1") ∧
      (_additional_events (save [] exTrackerNoSession "c1") exTrackerNoSession = [] ∧
        save (save [] exTrackerNoSession "c1") exTrackerNoSession "c2" ≠
          save [] exTrackerNoSession "c1") := by
  decide

/-- C2 (amended): calling `save` a second time with the exact same
non-empty full sequence containing no `session_started` event appends no
event document — the computed suffix of not-yet-persisted events is indeed
empty on the second call — but the store is not unchanged: the branch
guard tests the always-truthy `islice` iterator, so the call still appends
exactly one flattened record with no user turn fields and empty
accumulators. -/
theorem save_second_call_flattened_only (docs0 : List StoreDoc) (tr : Tracker)
    (c1 c2 : String)
    (hdisj : ∀ d ∈ docs0, docSender d ≠ SenderKey.str tr.sender_id)
    (hnoss : ∀ e ∈ tr.events, e.event ≠ "session_started")
    (hne : tr.events ≠ []) :
    _additional_events (save docs0 tr c1) tr = [] ∧
      save (save docs0 tr c1) tr c2 =
        save docs0 tr c1 ++
          [StoreDoc.flattenedDoc (.str tr.sender_id) c2 flattenInit] := by
  have hsave := save_disjoint docs0 tr c1 hdisj hne
  have hm :=
    matchedDocs_session_no_ss docs0 tr.sender_id c1 tr.events
      (buildFlattened tr.events) hdisj hnoss
  have hmne :
      tr.events.map (StoreDoc.eventDoc (.str tr.sender_id) c1) ++
        [StoreDoc.flattenedDoc (.str tr.sender_id) c1 (buildFlattened tr.events)] ≠ [] := by
    simp
  have hg :
      get_stored_events (save docs0 tr c1) tr.sender_id false =
        some
          ((stableSort tsLe
              (tr.events.map (StoreDoc.eventDoc (.str tr.sender_id) c1) ++
                [StoreDoc.flattenedDoc (.str tr.sender_id) c1
                  (buildFlattened tr.events)])).filterMap docEvent) := by
    rw [hsave, get_stored_events, hm, if_neg hmne]
  have hlen :
      ((stableSort tsLe
          (tr.events.map (StoreDoc.eventDoc (.str tr.sender_id) c1) ++
            [StoreDoc.flattenedDoc (.str tr.sender_id) c1
              (buildFlattened tr.events)])).filterMap docEvent).length =
        tr.events.length := by
    rw [length_sorted_filterMap, List.countP_append, countP_isSome_map]
    simp [docEvent]
  have hlne :
      (stableSort tsLe
          (tr.events.map (StoreDoc.eventDoc (.str tr.sender_id) c1) ++
            [StoreDoc.flattenedDoc (.str tr.sender_id) c1
              (buildFlattened tr.events)])).filterMap docEvent ≠ [] := by
    intro hcon
    apply hne
    have hzero := hlen
    rw [hcon] at hzero
    exact List.length_eq_zero.mp hzero.symm
  have hnf :
      stored_falsy (get_stored_events (save docs0 tr c1) tr.sender_id false) = false := by
    rw [hg, stored_falsy_some]
    simp [hlne]
  have hadd : _additional_events (save docs0 tr c1) tr = [] := by
    rw [_additional_events, hg, stored_falsy_some, if_neg (by simp [hlne])]
    simp [hlen]
  have ht : additional_events_truthy (save docs0 tr c1) tr = true := by
    rw [additional_events_truthy, if_neg (by simp [hnf])]
  refine ⟨hadd, ?_⟩
  rw [save, if_pos ht, hadd]
  simp [buildFlattened]

/-- Witness for the amended C2 at a concrete marker-free conversation:
the second call has an empty suffix and appends exactly the one empty
flattened record. -/
theorem save_second_call_flattened_only_witness :
    _additional_events (save [] exTrackerNoSession "c1") exTrackerNoSession = [] ∧
      save (save [] exTrackerNoSession "c1") exTrackerNoSession "c2" =
        save [] exTrackerNoSession "c1" ++
          [StoreDoc.flattenedDoc (.str exTrackerNoSession.sender_id) "c2" flattenInit] :=
  save_second_call_flattened_only [] exTrackerNoSession "c1" "c2" (by simp) (by decide)
    (by decide)

/-! ## C3 -/

/-- C3 counterexample: on the store produced by saving a session marker
followed by conversation events, the suffix the code computes differs
from the suffix described by the claim (the count under the unbounded
window including `session_started` events): the code reads the
session-scoped count instead and re-takes the trailing event. -/
theorem additional_events_unbounded_count_counterexample :
    _additional_events (save [] exTracker "c1") exTracker ≠
      additional_events_spec (save [] exTracker "c1") exTracker := by
  decide

/-- C3 (amended): `save` computes the suffix of events still to be
persisted from the session-scoped stored count, not the unbounded one:
the suffix is the full sequence when no event document lies in the
current session window, and otherwise the elements beyond the number of
event documents in that window (which excludes `session_started` markers
and events before the latest session start). -/
theorem additional_events_eq_drop_session_count (docs : List StoreDoc) (tr : Tracker) :
    _additional_events docs tr =
      if sessionWindowCount docs tr.sender_id = 0 then tr.events
      else tr.events.drop (sessionWindowCount docs tr.sender_id) := by
  have hmd :
      matchedDocs docs tr.sender_id false =
        docs.filter
          (matchesFilter tr.sender_id false (lastSessionStart docs tr.sender_id)) := rfl
  by_cases hm : matchedDocs docs tr.sender_id false = []
  · have hg : get_stored_events docs tr.sender_id false = none := by
      rw [get_stored_events, if_pos hm]
    have hc : sessionWindowCount docs tr.sender_id = 0 := by
      rw [sessionWindowCount, ← List.countP_filter, ← hmd, hm]
      rfl
    rw [_additional_events, hg, hc]
    simp [stored_falsy]
  · have hg := get_stored_events_of_matched docs tr.sender_id false hm
    have hcount :
        sessionWindowCount docs tr.sender_id =
          ((stableSort tsLe (matchedDocs docs tr.sender_id false)).filterMap
            docEvent).length := by
      rw [length_sorted_filterMap, sessionWindowCount, ← List.countP_filter, ← hmd]
    rw [_additional_events, hg, stored_falsy_some]
    by_cases hLnil :
        (stableSort tsLe (matchedDocs docs tr.sender_id false)).filterMap docEvent = []
    · rw [if_pos (by simp [hLnil]), if_pos (by rw [hcount, hLnil]; rfl)]
    · rw [if_neg (by simp [hLnil]), if_neg (by rw [hcount]; simp [hLnil]), hcount]
      rfl

/-! ## C4 -/

/-- C4 counterexample: a write batch whose suffix holds a single bot event
and no `user` event still appends exactly one flattened summary record,
refuting the only-if direction of the claim. -/
theorem save_flattened_without_user_counterexample :
    ((save [] exTrackerBotOnly "c1").filter isFlattenedDoc).length = 1 ∧
      exTrackerBotOnly.events.all (fun e => e.event != "user") = true := by
  decide

/-- C4 (amended): every `save` call appends exactly one flattened summary
record if and only if the additional events value is truthy — that is,
when the session-scoped stored read is truthy (even if the computed
suffix is then empty, since the `islice` iterator is always truthy), or,
with a falsy read, when the full sequence is non-empty. Whether the
suffix contains a `user` event is irrelevant; without one the user turn
fields of the record are simply absent. -/
theorem save_flattened_count (docs : List StoreDoc) (tr : Tracker) (cid : String) :
    flattenedCount (save docs tr cid) =
      flattenedCount docs + (if additional_events_truthy docs tr then 1 else 0) := by
  by_cases h : additional_events_truthy docs tr = true
  · rw [save, if_pos h, if_pos h]
    rw [flattenedCount, List.countP_append, List.countP_append]
    have h1 :
        ((_additional_events docs tr).map
            (fun e => StoreDoc.eventDoc (.str tr.sender_id) cid e)).countP
          isFlattenedDoc = 0 := by
      rw [List.countP_eq_zero]
      intro d hd
      rcases List.mem_map.mp hd with ⟨e, _, rfl⟩
      simp [isFlattenedDoc]
    rw [h1, flattenedCount]
    simp [List.countP_cons, isFlattenedDoc]
  · rw [save, if_neg h, if_neg h]
    rfl

/-! ## C5 -/

theorem buildFlattened_concat (l : List KEvent) (e : KEvent) :
    buildFlattened (l ++ [e]) = flattenStep (buildFlattened l) e := by
  rw [buildFlattened, buildFlattened, List.foldl_append]
  rfl

theorem flattenStep_fields_of_not_user (f : FlatData) (e : KEvent)
    (h : e.event ≠ "user") :
    (flattenStep f e).timestamp = f.timestamp ∧
      (flattenStep f e).user_input = f.user_input ∧
      (flattenStep f e).intent = f.intent ∧
      (flattenStep f e).confidence = f.confidence := by
  by_cases ha : e.event = "action"
  · simp [flattenStep, h, ha]
  · by_cases hb : e.event = "bot"
    · simp [flattenStep, h, ha, hb]
    · simp [flattenStep, h, ha, hb]

/-- C5 counterexample: with two `user` events in the batch, the flattened
record carries the timestamp, text, intent and confidence of the second
(last) user event, not those of the first one, and `save` stores exactly
that record. -/
theorem flattened_fields_last_user_counterexample :
    (save [] exTrackerTwoUsers "c1").filterMap docFlatData =
        [buildFlattened exTrackerTwoUsers.events] ∧
      (buildFlattened exTrackerTwoUsers.events).timestamp = some 2 ∧
      (buildFlattened exTrackerTwoUsers.events).user_input = some (some "second") ∧
      (buildFlattened exTrackerTwoUsers.events).intent = some "goodbye" ∧
      (buildFlattened exTrackerTwoUsers.events).confidence = some 20 ∧
      (exTrackerTwoUsers.events.filter fun e => e.event == "user").head? =
        some (exUser 1 "first" "greet" 10) ∧
      (exUser 1 "first" "greet" 10).timestamp = 1 ∧
      (exUser 1 "first" "greet" 10).text = some "first" ∧
      (exUser 1 "first" "greet" 10).intent = "greet" ∧
      (exUser 1 "first" "greet" 10).confidence = 10 := by
  decide

/-- C5 (amended): the timestamp of the flattened record, its, user input, intent
name and intent confidence are those of the last `user` event of the
suffix in encounter order (absent when the suffix has no user event),
because every user event overwrites them. -/
theorem buildFlattened_fields_from_last_user (suffix : List KEvent) :
    (buildFlattened suffix).timestamp =
        ((suffix.filter fun e => e.event == "user").getLast?).map (·.timestamp) ∧
      (buildFlattened suffix).user_input =
        ((suffix.filter fun e => e.event == "user").getLast?).map (·.text) ∧
      (buildFlattened suffix).intent =
        ((suffix.filter fun e => e.event == "user").getLast?).map (·.intent) ∧
      (buildFlattened suffix).confidence =
        ((suffix.filter fun e => e.event == "user").getLast?).map (·.confidence) := by
  induction suffix using List.reverseRecOn with
  | nil => exact ⟨rfl, rfl, rfl, rfl⟩
  | append_singleton l e ih =>
    rcases ih with ⟨ih1, ih2, ih3, ih4⟩
    rw [buildFlattened_concat, List.filter_append]
    by_cases hu : e.event = "user"
    · have hf : [e].filter (fun e => e.event == "user") = [e] := by simp [hu]
      rw [hf, List.getLast?_concat, flattenStep, if_pos hu]
      exact ⟨rfl, rfl, rfl, rfl⟩
    · have hf : [e].filter (fun e => e.event == "user") = [] := by simp [hu]
      rw [hf, List.append_nil]
      obtain ⟨h1, h2, h3, h4⟩ := flattenStep_fields_of_not_user (buildFlattened l) e hu
      exact ⟨h1.trans ih1, h2.trans ih2, h3.trans ih3, h4.trans ih4⟩

/-! ## C6 -/

theorem lastSessionStart_map_str (sid cid : String) (es : List KEvent) (T : Nat)
    (hT : ∃ e ∈ es, e.event = "session_started" ∧ e.timestamp = T)
    (hmax : ∀ e ∈ es, e.event = "session_started" → e.timestamp ≤ T) :
    lastSessionStart (es.map (StoreDoc.eventDoc (.str sid) cid)) sid = some T := by
  rcases hT with ⟨e, he, hess, hets⟩
  rw [lastSessionStart]
  apply maxTimestamp_eq_some
  · exact
      List.mem_filterMap.mpr
        ⟨_, List.mem_map_of_mem _ he, by simp [docEvent, docSender, hess, hets]⟩
  · intro x hx
    rcases List.mem_filterMap.mp hx with ⟨d, hd, hfd⟩
    rcases List.mem_map.mp hd with ⟨e2, he2, rfl⟩
    simp only [docEvent, docSender, eq_self_iff_true, true_and] at hfd
    by_cases hss : e2.event = "session_started"
    · rw [if_pos hss] at hfd
      obtain rfl : e2.timestamp = x := Option.some.inj hfd
      exact hmax e2 he2 hss
    · rw [if_neg hss] at hfd
      cases hfd

/-- C6: session-scoped `retrieve` on a conversation whose stored events
contain `session_started` markers with maximal timestamp `T` returns
exactly the stored events whose timestamp is at least `T` (the window
start is inclusive) excluding every `session_started` event, and nothing
before `T`. -/
theorem retrieve_session_window (sid cid : String) (es : List KEvent) (T : Nat)
    (hsorted : es.Pairwise fun a b => a.timestamp ≤ b.timestamp)
    (hT : ∃ e ∈ es, e.event = "session_started" ∧ e.timestamp = T)
    (hmax : ∀ e ∈ es, e.event = "session_started" → e.timestamp ≤ T)
    (hne :
      es.filter (fun e => e.event != "session_started" && decide (T ≤ e.timestamp)) ≠ []) :
    (retrieve (es.map (StoreDoc.eventDoc (.str sid) cid)) sid).events =
      some
        (es.filter fun e => e.event != "session_started" && decide (T ≤ e.timestamp)) := by
  have hls := lastSessionStart_map_str sid cid es T hT hmax
  have hpred :
      ∀ e ∈ es,
        matchesFilter sid false (some T) (StoreDoc.eventDoc (.str sid) cid e) =
          (e.event != "session_started" && decide (T ≤ e.timestamp)) := by
    intro e _
    simp [matchesFilter, docSender, eventTag, eventTs, docEvent, bne_some_some]
  have hmatched :
      matchedDocs (es.map (StoreDoc.eventDoc (.str sid) cid)) sid false =
        (es.filter fun e => e.event != "session_started" && decide (T ≤ e.timestamp)).map
          (StoreDoc.eventDoc (.str sid) cid) := by
    rw [matchedDocs]
    simp only [Bool.false_eq_true, if_false, hls]
    rw [List.filter_map]
    exact congrArg _ (List.filter_congr fun e he => by
      simpa [Function.comp] using hpred e he)
  have hmne :
      (es.filter fun e => e.event != "session_started" && decide (T ≤ e.timestamp)).map
          (StoreDoc.eventDoc (.str sid) cid) ≠ [] := by
    simpa [List.map_eq_nil_iff] using hne
  have hsort :=
    stableSort_eq_self tsLe
      ((es.filter fun e => e.event != "session_started" && decide (T ≤ e.timestamp)).map
        (StoreDoc.eventDoc (.str sid) cid))
      (pairwise_tsLe_map (SenderKey.str sid) cid
        (es.filter fun e => e.event != "session_started" && decide (T ≤ e.timestamp))
        (hsorted.filter _))
  have hsf :
      stored_falsy
        (some
          (es.filter fun e =>
            e.event != "session_started" && decide (T ≤ e.timestamp))) = false := by
    rw [stored_falsy_some]
    simpa using hne
  rw [retrieve, _retrieve, get_stored_events, hmatched, if_neg hmne, hsort,
    filterMap_docEvent_map]
  simp [hsf]

/-- Witness for C6 on the sample session: one old event before the
boundary, one marker at time 5 and five later events, the first exactly
at the boundary; the session-scoped read returns exactly those five. -/
theorem retrieve_session_window_witness :
    (retrieve (exSessionEvents.map (StoreDoc.eventDoc (.str "alice") "w")) "alice").events =
      some
        [exUser 5 "hello" "greet" 70, exAction 6 "a1", exBot 6 "reply",
         exUser 7 "next" "goodbye" 60, exBot 8 "done"] :=
  (retrieve_session_window "alice" "w" exSessionEvents 5 (by decide) (by decide)
      (by decide) (by decide)).trans (by decide)

/-! ## C7 -/

theorem ssTimestamps_map_str_no_ss (sid cid : String) (es : List KEvent)
    (hnoss : ∀ e ∈ es, e.event ≠ "session_started") :
    ssTimestamps (es.map (StoreDoc.eventDoc (.str sid) cid)) sid = [] := by
  rw [ssTimestamps, List.filterMap_eq_nil_iff]
  intro d hd
  rcases List.mem_map.mp hd with ⟨e, he, rfl⟩
  simp [docEvent, docSender, hnoss e he]

theorem get_stored_events_session_pure_no_ss (sid cid : String) (es : List KEvent)
    (hsorted : es.Pairwise fun a b => a.timestamp ≤ b.timestamp)
    (hnoss : ∀ e ∈ es, e.event ≠ "session_started")
    (hne : es ≠ []) :
    get_stored_events (es.map (StoreDoc.eventDoc (.str sid) cid)) sid false = some es := by
  have hls : lastSessionStart (es.map (StoreDoc.eventDoc (.str sid) cid)) sid = none := by
    rw [lastSessionStart, ssTimestamps_map_str_no_ss sid cid es hnoss]
    rfl
  have hmatched :
      matchedDocs (es.map (StoreDoc.eventDoc (.str sid) cid)) sid false =
        es.map (StoreDoc.eventDoc (.str sid) cid) := by
    rw [matchedDocs]
    simp only [Bool.false_eq_true, if_false, hls]
    exact
      List.filter_eq_self.mpr fun d hd => by
        rcases List.mem_map.mp hd with ⟨e, he, rfl⟩
        simp [matchesFilter, docSender, eventTag, docEvent, hnoss e he]
  have hmne : es.map (StoreDoc.eventDoc (.str sid) cid) ≠ [] := by
    simpa [List.map_eq_nil_iff] using hne
  rw [get_stored_events, hmatched, if_neg hmne,
    stableSort_eq_self tsLe _ (pairwise_tsLe_map (SenderKey.str sid) cid es hsorted),
    filterMap_docEvent_map]

/-- C7 counterexample: for a conversation stored only under the legacy
integer key 7, the very `retrieve` call under the string key returns
absent — the read is not retried after the rewrite — even though the
rewritten records are then readable under the string key. -/
theorem retrieve_legacy_same_call_counterexample :
    (retrieve (exLegacyEvents.map (StoreDoc.eventDoc (.int 7) "c0")) "7").events = none ∧
      get_stored_events
          ((retrieve (exLegacyEvents.map (StoreDoc.eventDoc (.int 7) "c0")) "7").docs) "7"
          false ≠ none := by
  decide

/-- C7 (amended): a `retrieve` under the canonical string form of a
purely numeric key, on a store holding the conversation only under the
equivalent legacy integer key, rewrites all legacy records to the string
key (no duplication) but itself returns absent; the next `retrieve` under
the string key then returns the events of the conversation. -/
theorem retrieve_legacy_numeric_key (sid cid : String) (es : List KEvent)
    (hdig : isdigit sid = true)
    (hsorted : es.Pairwise fun a b => a.timestamp ≤ b.timestamp)
    (hnoss : ∀ e ∈ es, e.event ≠ "session_started")
    (hne : es ≠ []) :
    (retrieve (es.map (StoreDoc.eventDoc (.int (strToNat sid)) cid)) sid).events = none ∧
      (retrieve (es.map (StoreDoc.eventDoc (.int (strToNat sid)) cid)) sid).ranMigration =
        true ∧
      (retrieve (es.map (StoreDoc.eventDoc (.int (strToNat sid)) cid)) sid).docs =
        es.map (StoreDoc.eventDoc (.str sid) cid) ∧
      (retrieve (es.map (StoreDoc.eventDoc (.str sid) cid)) sid).events = some es := by
  have hdisj :
      ∀ d ∈ es.map (StoreDoc.eventDoc (.int (strToNat sid)) cid),
        docSender d ≠ SenderKey.str sid := by
    intro d hd
    rcases List.mem_map.mp hd with ⟨e, _, rfl⟩
    simp [docSender]
  have hg := get_stored_events_eq_none _ sid false hdisj
  have hc :
      (stored_falsy
          (get_stored_events (es.map (StoreDoc.eventDoc (.int (strToNat sid)) cid)) sid
            false) &&
        isdigit sid) = true := by
    rw [hg, hdig]
    rfl
  have hmig :
      migrate_key (es.map (StoreDoc.eventDoc (.int (strToNat sid)) cid)) sid =
        es.map (StoreDoc.eventDoc (.str sid) cid) := by
    rw [migrate_key, List.map_map]
    simp [Function.comp, docSender, setSender]
  refine ⟨?_, ?_, ?_, ?_⟩
  · rw [retrieve, _retrieve, if_pos hc]
  · rw [retrieve, _retrieve, if_pos hc]
  · rw [retrieve, _retrieve, if_pos hc]
    exact hmig
  · have hgs := get_stored_events_session_pure_no_ss sid cid es hsorted hnoss hne
    have hsf :
        stored_falsy
          (get_stored_events (es.map (StoreDoc.eventDoc (.str sid) cid)) sid false) =
        false := by
      rw [hgs, stored_falsy_some]
      simpa using hne
    rw [retrieve, _retrieve, if_neg (by simp [hsf]), if_neg (by simp [hsf])]
    exact hgs

/-- Witness for the amended C7 on the legacy conversation stored under
integer key 7 and read under the string key. -/
theorem retrieve_legacy_numeric_key_witness :
    (retrieve (exLegacyEvents.map (StoreDoc.eventDoc (.int (strToNat "7")) "c0")) "7").events =
        none ∧
      (retrieve
            (exLegacyEvents.map
              (StoreDoc.eventDoc (.int (strToNat "7")) "c0")) "7").ranMigration = true ∧
      (retrieve (exLegacyEvents.map (StoreDoc.eventDoc (.int (strToNat "7")) "c0")) "7").docs =
        exLegacyEvents.map (StoreDoc.eventDoc (.str "7") "c0") ∧
      (retrieve (exLegacyEvents.map (StoreDoc.eventDoc (.str "7") "c0")) "7").events =
        some exLegacyEvents :=
  retrieve_legacy_numeric_key "7" "c0" exLegacyEvents (by decide) (by decide) (by decide)
    (by decide)

/-! ## C8 -/

/-- C8: `retrieve` under a key with no stored documents returns absent
(`none`, never the empty sequence — the third conjunct shows retrieve can
never return `some []`), and the legacy key bulk rewrite runs exactly
when the read came back falsy and the key is purely numeric; in
particular it never runs for a non numeric key. -/
theorem retrieve_absent_and_migration_guard (docs : List StoreDoc) (sid : String) :
    ((∀ d ∈ docs, docSender d ≠ SenderKey.str sid) → (retrieve docs sid).events = none) ∧
      (retrieve docs sid).events ≠ some [] ∧
      (retrieve docs sid).ranMigration =
        (stored_falsy (get_stored_events docs sid false) && isdigit sid) := by
  refine ⟨?_, ?_, ?_⟩
  · intro hdisj
    have hg := get_stored_events_eq_none docs sid false hdisj
    rw [retrieve, _retrieve, hg]
    by_cases hd : isdigit sid
    · rw [if_pos (by simp [stored_falsy, hd])]
    · rw [if_neg (by simp [stored_falsy, hd]), if_pos (by simp [stored_falsy])]
  · rw [retrieve, _retrieve]
    by_cases c1 : (stored_falsy (get_stored_events docs sid false) && isdigit sid) = true
    · rw [if_pos c1]
      simp
    · rw [if_neg c1]
      by_cases c2 : stored_falsy (get_stored_events docs sid false) = true
      · rw [if_pos c2]
        simp
      · rw [if_neg c2]
        show get_stored_events docs sid false ≠ some []
        intro hcon
        rw [hcon] at c2
        exact c2 rfl
  · rw [retrieve, _retrieve]
    by_cases c1 : (stored_falsy (get_stored_events docs sid false) && isdigit sid) = true
    · rw [if_pos c1]
      exact c1.symm
    · rw [if_neg c1]
      have hfalse :
          (stored_falsy (get_stored_events docs sid false) && isdigit sid) = false :=
        Bool.eq_false_iff.mpr c1
      by_cases c2 : stored_falsy (get_stored_events docs sid false) = true
      · rw [if_pos c2]
        exact hfalse.symm
      · rw [if_neg c2]
        exact hfalse.symm

/-- Witness for C8: a store holding only a document of another sender, read
under a non numeric key: the result is absent and the migration did not
run. -/
theorem retrieve_absent_guard_witness :
    (retrieve [StoreDoc.eventDoc (.str "bob") "c0" (exBot 1 "x")] "alice").events = none ∧
      (retrieve [StoreDoc.eventDoc (.str "bob") "c0" (exBot 1 "x")] "alice").ranMigration =
        false := by
  have h :=
    retrieve_absent_and_migration_guard [StoreDoc.eventDoc (.str "bob") "c0" (exBot 1 "x")]
      "alice"
  exact ⟨h.1 (by decide), by rw [h.2.2]; decide⟩

/-! ## C9 -/

/-- C9: `keys` raises on any non-empty store. `distinct` returns the
field values themselves (strings or integers), and the comprehension
subscripts each value with the string key `sender_id`, a `TypeError` in
Python; only on an empty store does `keys` return without raising. This
contradicts the claim (and the docstring of the method itself). -/
theorem keys_raises_on_nonempty_store :
    keys [StoreDoc.eventDoc (.str "a") "c0" (exBot 1 "x")] =
        Except.error "TypeError: sender_id subscription of a non dictionary value" ∧
      keys ([] : List StoreDoc) = Except.ok [] :=
  ⟨rfl, rfl⟩

/-! ## C10 -/

/-- C10: when `save` appends a non-empty batch, every appended document —
the event documents and the flattened summary — carries the single
freshly generated batch identifier as its `conversation_id`, and the
batch holds exactly one flattened record, so the projection and its
source events are linkable through that shared identifier. -/
theorem save_batch_shares_conversation_id (docs : List StoreDoc) (tr : Tracker)
    (cid : String) (h : _additional_events docs tr ≠ []) :
    (∀ d ∈ (save docs tr cid).drop docs.length, docConversationId d = cid) ∧
      ((save docs tr cid).drop docs.length).filter isFlattenedDoc =
        [StoreDoc.flattenedDoc (.str tr.sender_id) cid
          (buildFlattened (_additional_events docs tr))] := by
  rw [save, if_pos (additional_events_truthy_of_ne docs tr h), List.append_assoc,
    List.drop_left]
  constructor
  · intro d hd
    rcases List.mem_append.mp hd with hd | hd
    · rcases List.mem_map.mp hd with ⟨e, _, rfl⟩
      rfl
    · rcases List.mem_singleton.mp hd with rfl
      rfl
  · rw [List.filter_append]
    have h1 :
        ((_additional_events docs tr).map
            (fun e => StoreDoc.eventDoc (.str tr.sender_id) cid e)).filter
          isFlattenedDoc = [] :=
      List.filter_eq_nil_iff.mpr fun d hd => by
        rcases List.mem_map.mp hd with ⟨e, _, rfl⟩
        simp [isFlattenedDoc]
    rw [h1, List.nil_append]
    rfl

/-- Witness for C10: the batch written for the two-event conversation
holds exactly one flattened record carrying the batch identifier. -/
theorem save_batch_shares_conversation_id_witness :
    ((save [] exTrackerNoSession "c7").drop (List.length ([] : List StoreDoc))).filter
        isFlattenedDoc =
      [StoreDoc.flattenedDoc (.str exTrackerNoSession.sender_id) "c7"
        (buildFlattened (_additional_events [] exTrackerNoSession))] :=
  (save_batch_shares_conversation_id [] exTrackerNoSession "c7" (by decide)).2

end KaironTrackers
